import Mathlib

/-!
Shallow embedding of the Blackjack library (`lib/BlackjackLibraries.py`):
the card model, the hand-scoring engine (`Hand.receive_card` and the three
hand constructors), and the player bet-lifecycle operations
(`validate_bet`, `create_hand`, `create_split_hand`, `update_total_bets`,
`update_bet`, `create_insurance_bet`), together with theorems checking the
natural-language specification against this embedding.

Python integers are modelled as `Int` where negative values can occur
(banks, bets) and `Nat` for card values and hand scores (card values are
positive and scores are sums of them).  The Python value `None` is
modelled by `Option`.  Verdicts are the literal strings the source
returns.
-/

namespace Blackjack

/-- Card ranks.  The source restricts `Card` to ranks 2..K and represents
aces by the subclass `Ace` with rank `'A'`; here the ace is one more rank
constructor and `type(card) == Ace` becomes `rank = rA`. -/
inductive Rank where
  | r2 | r3 | r4 | r5 | r6 | r7 | r8 | r9 | r10 | rJ | rQ | rK | rA
deriving DecidableEq, Repr

/-- Card suits S, D, H, C. -/
inductive Suit where
  | S | D | H | C
deriving DecidableEq, Repr

/-- A playing card: rank and suit, as built by `Card.__init__` /
`Ace.__init__` (only valid ranks and suits are representable). -/
structure Card where
  rank : Rank
  suit : Suit
deriving DecidableEq, Repr

/-- `card.value` as assigned by the constructors: the numeric rank for
2..10, 10 for face cards, and 1 for an ace. -/
def Card.value (c : Card) : Nat :=
  match c.rank with
  | .r2 => 2 | .r3 => 3 | .r4 => 4 | .r5 => 5 | .r6 => 6
  | .r7 => 7 | .r8 => 8 | .r9 => 9 | .r10 => 10
  | .rJ => 10 | .rQ => 10 | .rK => 10
  | .rA => 1

/-- The three hand classes: `Hand` (`hand_type = 'regular'`),
`SplitHand` (`'split'`) and `DealerHand` (`'dealer'`). -/
inductive HandType where
  | regular | split | dealer
deriving DecidableEq, Repr

/-- The attributes of a hand object.  The Python classes differ in which
attributes exist (`SplitHand` has no `blackjack`/`has_pair`, `DealerHand`
has `insurance` and no `bet_amt`); here every field is present and the
constructors/`receive_card` touch exactly the fields the corresponding
Python class touches, so absent attributes simply keep their initial
value. -/
structure Hand where
  hand_type : HandType
  cards : List Card
  has_ace : Bool
  soft_score : Nat
  hard_score : Nat
  blackjack : Bool
  has_pair : Bool
  busted : Bool
  insurance : Bool
  bet_amt : Int
deriving DecidableEq, Repr

/-- `Hand.receive_card`: add a card to the hand and update all attributes,
following the source statement by statement (ace flag, pair check on the
second card for regular hands, insurance check on the second card for the
dealer, append, rescore, blackjack check on two-card non-split hands). -/
def receive_card (h : Hand) (top_card : Card) : Hand :=
  -- if type(top_card) == Ace: self.has_ace = True
  let has_ace := if top_card.rank = Rank.rA then true else h.has_ace
  -- pair check, only for the regular hand type and only when the hand
  -- held exactly one card before the append
  let has_pair :=
    if h.hand_type = HandType.regular ∧ h.cards.length = 1 then
      match h.cards with
      | c0 :: _ => if c0.rank = top_card.rank then true else h.has_pair
      | [] => h.has_pair
    else h.has_pair
  -- insurance check, dealer only, on the second (face-up) card
  let insurance :=
    if h.hand_type = HandType.dealer ∧ h.cards.length = 1 then
      if top_card.value = 1 ∨ top_card.value = 10 then true else h.insurance
    else h.insurance
  -- self.cards.append(top_card)
  let cards := h.cards ++ [top_card]
  -- rescore: hard score sums every card at its low value
  let hard_score := (cards.map Card.value).sum
  -- one ace may be promoted by adding 10 to the hard score
  let soft_cand := if has_ace then hard_score + 10 else hard_score
  let soft_score := if soft_cand > 21 then hard_score else soft_cand
  let busted :=
    if soft_cand > 21 then
      if hard_score > 21 then true else h.busted
    else h.busted
  -- blackjack check: non-split hands with exactly two cards
  let blackjack :=
    if h.hand_type ≠ HandType.split ∧ cards.length = 2 then
      match cards with
      | c0 :: c1 :: _ =>
        let b1 := if c0.value = 1 ∧ c1.value = 10 then true else h.blackjack
        if c1.value = 1 ∧ c0.value = 10 then true else b1
      | _ => h.blackjack
    else h.blackjack
  { hand_type := h.hand_type, cards := cards, has_ace := has_ace,
    soft_score := soft_score, hard_score := hard_score,
    blackjack := blackjack, has_pair := has_pair, busted := busted,
    insurance := insurance, bet_amt := h.bet_amt }

/-- `Hand.__init__(ante)`: an empty regular hand carrying the ante. -/
def Hand.init (ante : Int) : Hand :=
  { hand_type := HandType.regular, cards := [], has_ace := false,
    soft_score := 0, hard_score := 0, blackjack := false,
    has_pair := false, busted := false, insurance := false,
    bet_amt := ante }

/-- `SplitHand.__init__(card, bet)`: a split hand seeded with one card via
`receive_card`. -/
def SplitHand.init (card : Card) (bet : Int) : Hand :=
  receive_card
    { hand_type := HandType.split, cards := [], has_ace := false,
      soft_score := 0, hard_score := 0, blackjack := false,
      has_pair := false, busted := false, insurance := false,
      bet_amt := bet } card

/-- `DealerHand.__init__()`: an empty dealer hand with no bet. -/
def DealerHand.init : Hand :=
  { hand_type := HandType.dealer, cards := [], has_ace := false,
    soft_score := 0, hard_score := 0, blackjack := false,
    has_pair := false, busted := false, insurance := false,
    bet_amt := 0 }

/-- Deal a sequence of cards to a hand, one `receive_card` at a time. -/
def deal (h : Hand) (cs : List Card) : Hand :=
  cs.foldl receive_card h

/-- Index into `Player.hands`: the dictionary keys `'one'` and `'two'`. -/
inductive Which where
  | one | two
deriving DecidableEq, Repr

/-- The attributes of a `Player` object that the bet lifecycle touches.
`total_bets` and `insurance_bet` can be Python `None`, hence `Option`. -/
structure Player where
  name : String
  skill_level : String
  bank : Int
  reserve : Int
  total_bets : Option Int
  insurance_bet : Option Int
  hand_one : Option Hand
  hand_two : Option Hand
deriving DecidableEq, Repr

/-- `self.hands[which_hand]`. -/
def getHand (p : Player) : Which → Option Hand
  | Which.one => p.hand_one
  | Which.two => p.hand_two

/-- `self.hands[which_hand] = h`. -/
def setHand (p : Player) (w : Which) (h : Option Hand) : Player :=
  match w with
  | Which.one => { p with hand_one := h }
  | Which.two => { p with hand_two := h }

/-- The `SKILL_TYPES` tuple. -/
def SKILL_TYPES : List String :=
  ["starter", "adept", "professional", "master", "high roller"]

/-- `Player.__init__(name, skill, bank, reserve, table_min)`: `none`
models the constructor raising (invalid skill, or `bank - table_min < 0`);
otherwise the reserve is subtracted from the bank and the bookkeeping
fields start at their defaults. -/
def Player.init (name skill : String) (bank reserve table_min : Int) :
    Option Player :=
  if skill ∈ SKILL_TYPES then
    if bank - table_min < 0 then none
    else
      some { name := name, skill_level := skill, bank := bank - reserve,
             reserve := reserve, total_bets := some 0,
             insurance_bet := none, hand_one := none, hand_two := none }
  else none

/-- `Player.validate_bet(amt, table_max, table_min)`: the five checks in
source order, first match winning; a `None` bet total is read as 0; the
chained comparisons `amt > table_max > 0` and `table_min > amt > 0` are
spelled out as conjunctions. -/
def validate_bet (p : Player) (amt table_max table_min : Int) : String :=
  let bet_total : Int :=
    match p.total_bets with
    | none => 0
    | some v => v
  if bet_total = p.bank then "invalid"
  else if table_min + bet_total > p.bank then "invalid"
  else if amt + bet_total > p.bank then "bank"
  else if amt > table_max ∧ table_max > 0 then "high"
  else if table_min > amt ∧ amt > 0 then "low"
  else "passed"

/-- `Player.update_total_bets()`: recompute the bet total from scratch.
`if self.insurance_bet:` is Python truthiness, so `None` and `0` both
contribute nothing. -/
def update_total_bets (p : Player) : Player :=
  let bet_total : Int :=
    match p.insurance_bet with
    | none => 0
    | some v => if v = 0 then 0 else v
  let bet_total :=
    bet_total + (match p.hand_one with | some h => h.bet_amt | none => 0)
  let bet_total :=
    bet_total + (match p.hand_two with | some h => h.bet_amt | none => 0)
  { p with total_bets := some bet_total }

/-- `Player.create_hand(ante, table_max, table_min)`: validate, and on
`"passed"` install a fresh regular hand in slot one and recompute the bet
total; otherwise return the verdict with the player untouched. -/
def create_hand (p : Player) (ante table_max table_min : Int) :
    Player × String :=
  let validation := validate_bet p ante table_max table_min
  if validation = "passed" then
    (update_total_bets { p with hand_one := some (Hand.init ante) },
     "success")
  else (p, validation)

/-- `Player.create_split_hand(ante, which_hand, start_card)`: install a
split hand (no validation) and recompute the bet total. -/
def create_split_hand (p : Player) (ante : Int) (which_hand : Which)
    (start_card : Card) : Player :=
  update_total_bets
    (setHand p which_hand (some (SplitHand.init start_card ante)))

/-- `Player.update_bet(amt, which_hand, table_max, table_min)`: validate
the raised total; on any failure return that verdict; then reject a raise
larger than the current bet with `"bet"`; else commit.  `none` models the
attribute error Python raises when the addressed hand does not exist. -/
def update_bet (p : Player) (amt : Int) (which_hand : Which)
    (table_max table_min : Int) : Option (Player × String) :=
  match getHand p which_hand with
  | none => none
  | some h =>
    let raised_bet := amt + h.bet_amt
    let result := validate_bet p raised_bet table_max table_min
    if result ≠ "passed" then some (p, result)
    else if amt > h.bet_amt then some (p, "bet")
    else
      some (update_total_bets
        (setHand p which_hand (some { h with bet_amt := h.bet_amt + amt })),
        "success")

/-- `Player.create_insurance_bet(amt, table_max, table_min)`: validate,
and on `"passed"` record the insurance bet and recompute the bet total. -/
def create_insurance_bet (p : Player) (amt table_max table_min : Int) :
    Player × String :=
  let result := validate_bet p amt table_max table_min
  if result ≠ "passed" then (p, result)
  else
    (update_total_bets { p with insurance_bet := some amt }, "success")

/-! ### Field lemmas for `receive_card` -/

theorem receive_card_hand_type (h : Hand) (c : Card) :
    (receive_card h c).hand_type = h.hand_type := by
  simp [receive_card]

theorem receive_card_cards (h : Hand) (c : Card) :
    (receive_card h c).cards = h.cards ++ [c] := by
  simp [receive_card]

theorem receive_card_bet_amt (h : Hand) (c : Card) :
    (receive_card h c).bet_amt = h.bet_amt := by
  simp [receive_card]

theorem receive_card_hard_score (h : Hand) (c : Card) :
    (receive_card h c).hard_score = (h.cards.map Card.value).sum + c.value := by
  simp [receive_card]

theorem deal_nil (h : Hand) : deal h [] = h := rfl

theorem deal_cons (h : Hand) (c : Card) (cs : List Card) :
    deal h (c :: cs) = deal (receive_card h c) cs := rfl

theorem deal_hand_type (h : Hand) (cs : List Card) :
    (deal h cs).hand_type = h.hand_type := by
  induction cs generalizing h with
  | nil => rfl
  | cons c cs ih => rw [deal_cons, ih, receive_card_hand_type]

theorem deal_cards (h : Hand) (cs : List Card) :
    (deal h cs).cards = h.cards ++ cs := by
  induction cs generalizing h with
  | nil => simp [deal_nil]
  | cons c cs ih => rw [deal_cons, ih, receive_card_cards]; simp

/-! ### Score invariants (C3) -/

/-- The scoring invariant: the hard score is the sum of the card values,
it never exceeds the soft score, the two scores agree without an ace, and
the bust flag tracks `hard_score > 21` exactly. -/
def ScoreInv (h : Hand) : Prop :=
  h.hard_score = (h.cards.map Card.value).sum ∧
  h.hard_score ≤ h.soft_score ∧
  (h.has_ace = false → h.soft_score = h.hard_score) ∧
  (h.busted = true ↔ h.hard_score > 21)

/-- The soft score and bust flag that `receive_card` computes, expressed
through the updated hard score and ace flag (the candidate soft score is
the hard score plus 10 when an ace is present). -/
theorem receive_card_soft_busted (h : Hand) (c : Card) :
    ((receive_card h c).soft_score =
       if (if (receive_card h c).has_ace = true
           then (receive_card h c).hard_score + 10
           else (receive_card h c).hard_score) > 21
       then (receive_card h c).hard_score
       else (if (receive_card h c).has_ace = true
             then (receive_card h c).hard_score + 10
             else (receive_card h c).hard_score)) ∧
    ((receive_card h c).busted =
       if (if (receive_card h c).has_ace = true
           then (receive_card h c).hard_score + 10
           else (receive_card h c).hard_score) > 21
       then (if (receive_card h c).hard_score > 21 then true else h.busted)
       else h.busted) :=
  ⟨rfl, rfl⟩

theorem scoreInv_receive_card (h : Hand) (c : Card) (ih : ScoreInv h) :
    ScoreInv (receive_card h c) := by
  obtain ⟨ihs, -, -, ihb⟩ := ih
  obtain ⟨hsoft, hbust⟩ := receive_card_soft_busted h c
  have hhard := receive_card_hard_score h c
  have hmono : h.hard_score ≤ (receive_card h c).hard_score := by omega
  refine ⟨?_, ?_, ?_, ?_⟩
  · rw [receive_card_hard_score, receive_card_cards]
    simp
  · rw [hsoft]
    by_cases hA : (receive_card h c).has_ace = true
    · simp only [hA, if_true]
      split <;> omega
    · simp only [hA, if_false, Bool.false_eq_true]
      split <;> omega
  · intro hna
    rw [hsoft, hna]
    simp
  · rw [hbust]
    by_cases hc : (if (receive_card h c).has_ace = true
        then (receive_card h c).hard_score + 10
        else (receive_card h c).hard_score) > 21
    · rw [if_pos hc]
      by_cases hH : (receive_card h c).hard_score > 21
      · rw [if_pos hH]
        simp [hH]
      · rw [if_neg hH, ihb]
        omega
    · rw [if_neg hc]
      have hH : ¬ (receive_card h c).hard_score > 21 := by
        by_cases hA : (receive_card h c).has_ace = true <;>
          simp [hA] at hc <;> omega
      rw [ihb]
      omega

theorem scoreInv_Hand_init (ante : Int) : ScoreInv (Hand.init ante) := by
  refine ⟨rfl, le_refl _, fun _ => rfl, ?_⟩
  simp [Hand.init]

theorem scoreInv_DealerHand_init : ScoreInv DealerHand.init := by
  refine ⟨rfl, le_refl _, fun _ => rfl, ?_⟩
  simp [DealerHand.init]

theorem scoreInv_SplitHand_init (card : Card) (bet : Int) :
    ScoreInv (SplitHand.init card bet) := by
  apply scoreInv_receive_card
  refine ⟨rfl, le_refl _, fun _ => rfl, by simp⟩

theorem scoreInv_deal (h : Hand) (cs : List Card) (ih : ScoreInv h) :
    ScoreInv (deal h cs) := by
  induction cs generalizing h with
  | nil => exact ih
  | cons c cs ihl => exact ihl _ (scoreInv_receive_card h c ih)

/-! ### Blackjack flag (C4) -/

/-- Two cards forming a blackjack: one value-1 card and one value-10 card,
in either order. -/
def bjPair (a b : Card) : Prop :=
  (a.value = 1 ∧ b.value = 10) ∨ (b.value = 1 ∧ a.value = 10)

instance (a b : Card) : Decidable (bjPair a b) := by
  unfold bjPair
  infer_instance

theorem receive_card_blackjack_of_split (h : Hand) (c : Card)
    (hsp : h.hand_type = HandType.split) :
    (receive_card h c).blackjack = h.blackjack := by
  simp [receive_card, hsp]

theorem receive_card_blackjack_of_len (h : Hand) (c : Card)
    (hlen : h.cards.length ≠ 1) :
    (receive_card h c).blackjack = h.blackjack := by
  simp [receive_card, hlen]

theorem receive_card_blackjack_second (h : Hand) (c0 c : Card)
    (hns : h.hand_type ≠ HandType.split) (hone : h.cards = [c0]) :
    ((receive_card h c).blackjack = true ↔
      (h.blackjack = true ∨ bjPair c0 c)) := by
  simp only [receive_card, hone, hns, bjPair]
  simp
  rw [if_neg hns]
  tauto

theorem deal_blackjack_of_len (h : Hand) (cs : List Card)
    (hlen : 2 ≤ h.cards.length) :
    (deal h cs).blackjack = h.blackjack := by
  induction cs generalizing h with
  | nil => rfl
  | cons c cs ih =>
    rw [deal_cons, ih, receive_card_blackjack_of_len h c (by omega)]
    rw [receive_card_cards]
    simp
    omega

theorem deal_blackjack_of_split (h : Hand) (cs : List Card)
    (hsp : h.hand_type = HandType.split) :
    (deal h cs).blackjack = h.blackjack := by
  induction cs generalizing h with
  | nil => rfl
  | cons c cs ih =>
    rw [deal_cons, ih, receive_card_blackjack_of_split h c hsp]
    rw [receive_card_hand_type]
    exact hsp

/-- Characterization of the blackjack flag for a hand dealt from empty:
set exactly when the first two cards dealt are an ace/ten pair. -/
theorem deal_blackjack_fresh (h0 : Hand) (cs : List Card)
    (hcards : h0.cards = []) (hbj : h0.blackjack = false)
    (hns : h0.hand_type ≠ HandType.split) :
    ((deal h0 cs).blackjack = true ↔
      ∃ c0 c1 rest, cs = c0 :: c1 :: rest ∧ bjPair c0 c1) := by
  match cs with
  | [] =>
    rw [deal_nil, hbj]
    simp
  | [c0] =>
    rw [deal_cons, deal_nil,
      receive_card_blackjack_of_len h0 c0 (by rw [hcards]; simp), hbj]
    simp
  | c0 :: c1 :: rest =>
    rw [deal_cons, deal_cons]
    have h1cards : (receive_card h0 c0).cards = [c0] := by
      rw [receive_card_cards, hcards]
      rfl
    have h1bj : (receive_card h0 c0).blackjack = false := by
      rw [receive_card_blackjack_of_len h0 c0 (by rw [hcards]; simp), hbj]
    have h1ns : (receive_card h0 c0).hand_type ≠ HandType.split := by
      rw [receive_card_hand_type]
      exact hns
    have h2len : 2 ≤ (receive_card (receive_card h0 c0) c1).cards.length := by
      rw [receive_card_cards, h1cards]
      simp
    rw [deal_blackjack_of_len _ rest h2len,
      receive_card_blackjack_second _ c0 c1 h1ns h1cards, h1bj]
    constructor
    · rintro (hfalse | hp)
      · exact absurd hfalse (by simp)
      · exact ⟨c0, c1, rest, rfl, hp⟩
    · rintro ⟨a, b, r, heq, hp⟩
      obtain ⟨rfl, rfl, rfl⟩ : c0 = a ∧ c1 = b ∧ rest = r := by
        simpa using heq
      exact Or.inr hp

/-! ### Pair flag (C5) -/

theorem receive_card_has_pair_of_len (h : Hand) (c : Card)
    (hlen : h.cards.length ≠ 1) :
    (receive_card h c).has_pair = h.has_pair := by
  simp [receive_card, hlen]

theorem receive_card_has_pair_second (h : Hand) (c0 c : Card)
    (hreg : h.hand_type = HandType.regular) (hone : h.cards = [c0]) :
    ((receive_card h c).has_pair = true ↔
      (h.has_pair = true ∨ c0.rank = c.rank)) := by
  simp only [receive_card, hone, hreg, bjPair]
  simp
  tauto

theorem deal_has_pair_of_len (h : Hand) (cs : List Card)
    (hlen : 2 ≤ h.cards.length) :
    (deal h cs).has_pair = h.has_pair := by
  induction cs generalizing h with
  | nil => rfl
  | cons c cs ih =>
    rw [deal_cons, ih, receive_card_has_pair_of_len h c (by omega)]
    rw [receive_card_cards]
    simp
    omega

/-- Characterization of the pair flag for a regular hand dealt from empty:
set exactly when the second card dealt matches the rank of the first. -/
theorem deal_has_pair_fresh (h0 : Hand) (cs : List Card)
    (hcards : h0.cards = []) (hpr : h0.has_pair = false)
    (hreg : h0.hand_type = HandType.regular) :
    ((deal h0 cs).has_pair = true ↔
      ∃ c0 c1 rest, cs = c0 :: c1 :: rest ∧ c0.rank = c1.rank) := by
  match cs with
  | [] =>
    rw [deal_nil, hpr]
    simp
  | [c0] =>
    rw [deal_cons, deal_nil,
      receive_card_has_pair_of_len h0 c0 (by rw [hcards]; simp), hpr]
    simp
  | c0 :: c1 :: rest =>
    rw [deal_cons, deal_cons]
    have h1cards : (receive_card h0 c0).cards = [c0] := by
      rw [receive_card_cards, hcards]
      rfl
    have h1pr : (receive_card h0 c0).has_pair = false := by
      rw [receive_card_has_pair_of_len h0 c0 (by rw [hcards]; simp), hpr]
    have h1reg : (receive_card h0 c0).hand_type = HandType.regular := by
      rw [receive_card_hand_type]
      exact hreg
    have h2len : 2 ≤ (receive_card (receive_card h0 c0) c1).cards.length := by
      rw [receive_card_cards, h1cards]
      simp
    rw [deal_has_pair_of_len _ rest h2len,
      receive_card_has_pair_second _ c0 c1 h1reg h1cards, h1pr]
    constructor
    · rintro (hfalse | hp)
      · exact absurd hfalse (by simp)
      · exact ⟨c0, c1, rest, rfl, hp⟩
    · rintro ⟨a, b, r, heq, hp⟩
      obtain ⟨rfl, rfl, rfl⟩ : c0 = a ∧ c1 = b ∧ rest = r := by
        simpa using heq
      exact Or.inr hp

/-! ### Bet bookkeeping lemmas -/

/-- The bet total the specification prescribes: insurance bet (or 0 when
absent) plus the bet amounts of the hands that exist. -/
def totalBetsSpec (p : Player) : Int :=
  p.insurance_bet.getD 0 +
    (match p.hand_one with | some h => h.bet_amt | none => 0) +
    (match p.hand_two with | some h => h.bet_amt | none => 0)

theorem update_total_bets_bank (p : Player) :
    (update_total_bets p).bank = p.bank := rfl

theorem update_total_bets_hand_one (p : Player) :
    (update_total_bets p).hand_one = p.hand_one := rfl

theorem update_total_bets_hand_two (p : Player) :
    (update_total_bets p).hand_two = p.hand_two := rfl

theorem update_total_bets_insurance (p : Player) :
    (update_total_bets p).insurance_bet = p.insurance_bet := rfl

/-- `update_total_bets` recomputes exactly the bet total the spec
prescribes (Python truthiness of the insurance bet makes no difference,
since a zero insurance bet contributes zero either way). -/
theorem update_total_bets_total (p : Player) :
    (update_total_bets p).total_bets = some (totalBetsSpec p) := by
  rcases hins : p.insurance_bet with _ | v
  · simp [update_total_bets, totalBetsSpec, hins]
  · by_cases hv : v = 0 <;>
      simp [update_total_bets, totalBetsSpec, hins, hv]

/-- After `update_total_bets`, the stored total is the spec total of the
resulting player (only `total_bets` itself changed). -/
theorem update_total_bets_consistent (p : Player) :
    (update_total_bets p).total_bets =
      some (totalBetsSpec (update_total_bets p)) :=
  update_total_bets_total p

theorem validate_bet_ne_success (p : Player) (amt tmax tmin : Int) :
    validate_bet p amt tmax tmin ≠ "success" := by
  simp only [validate_bet]
  repeat' split
  all_goals decide

/-- The bet-validation rules as the specification words them: five rules
checked in order, first match winning. -/
def validateBetSpec (bank total_bets amt table_max table_min : Int) :
    String :=
  if total_bets = bank ∨ table_min + total_bets > bank then "invalid"
  else if amt + total_bets > bank then "bank"
  else if table_max > 0 ∧ amt > table_max then "high"
  else if table_min > 0 ∧ 0 < amt ∧ amt < table_min then "low"
  else "passed"

/-! ### Claim theorems -/

/-- C1: for every player state (bank, populated total_bets) and table
limits, `validate_bet` returns exactly the verdict of the spec's five
rules checked in order with first match winning: `"invalid"` if
`total_bets = bank` or `table_min + total_bets > bank`; else `"bank"` if
`amt + total_bets > bank`; else `"high"` if `table_max > 0` and
`amt > table_max`; else `"low"` if `table_min > 0` and
`0 < amt < table_min` (a zero amount bypasses the low check); else
`"passed"`. -/
theorem claim_C1 (p : Player) (tb amt table_max table_min : Int)
    (htb : p.total_bets = some tb) :
    validate_bet p amt table_max table_min =
      validateBetSpec p.bank tb amt table_max table_min := by
  simp only [validate_bet, validateBetSpec, htb]
  split_ifs <;> first | rfl | omega

/-- Concrete player used to witness C1: bank 1000, bet total 0. -/
def pW1 : Player :=
  { name := "w1", skill_level := "starter", bank := 1000, reserve := 0,
    total_bets := some 0, insurance_bet := none, hand_one := none,
    hand_two := none }

theorem claim_C1_witness :
    pW1.total_bets = some 0 ∧
      validate_bet pW1 50 25 0 = validateBetSpec pW1.bank 0 50 25 0 :=
  ⟨rfl, claim_C1 pW1 0 50 25 0 rfl⟩

/-- C10: for every player whose `total_bets` is `None` (not yet populated
for the round), `validate_bet` does not fail and returns exactly the
verdict it would return with `total_bets = 0`, for all amounts and table
limits. -/
theorem claim_C10 (p : Player) (amt table_max table_min : Int)
    (hnone : p.total_bets = none) :
    validate_bet p amt table_max table_min =
      validate_bet { p with total_bets := some 0 } amt table_max table_min := by
  simp [validate_bet, hnone]

/-- Concrete player used to witness C10: bet total not yet populated. -/
def pW10 : Player :=
  { name := "w10", skill_level := "starter", bank := 100, reserve := 0,
    total_bets := none, insurance_bet := none, hand_one := none,
    hand_two := none }

theorem claim_C10_witness :
    pW10.total_bets = none ∧
      validate_bet pW10 30 0 10 =
        validate_bet { pW10 with total_bets := some 0 } 30 0 10 :=
  ⟨rfl, claim_C10 pW10 30 0 10 rfl⟩

/-- C3: for every hand (regular, split or dealer) after any sequence of
`receive_card` calls starting from a freshly constructed hand, the hard
score never exceeds the soft score, the two scores agree whenever no ace
is present, and the bust flag is set exactly when the hard score exceeds
21. -/
theorem claim_C3 (h0 : Hand) (cs : List Card)
    (hfresh : (∃ a, h0 = Hand.init a) ∨ (∃ c b, h0 = SplitHand.init c b) ∨
      h0 = DealerHand.init) :
    (deal h0 cs).hard_score ≤ (deal h0 cs).soft_score ∧
    ((deal h0 cs).has_ace = false →
      (deal h0 cs).soft_score = (deal h0 cs).hard_score) ∧
    ((deal h0 cs).busted = true ↔ (deal h0 cs).hard_score > 21) := by
  have hinv : ScoreInv h0 := by
    rcases hfresh with ⟨a, rfl⟩ | ⟨c, b, rfl⟩ | rfl
    · exact scoreInv_Hand_init a
    · exact scoreInv_SplitHand_init c b
    · exact scoreInv_DealerHand_init
  obtain ⟨-, h1, h2, h3⟩ := scoreInv_deal h0 cs hinv
  exact ⟨h1, h2, h3⟩

theorem claim_C3_witness :
    ((∃ a, Hand.init 10 = Hand.init a) ∨
      (∃ c b, Hand.init 10 = SplitHand.init c b) ∨
      Hand.init 10 = DealerHand.init) ∧
    (let hd := deal (Hand.init 10)
      [⟨Rank.r10, Suit.S⟩, ⟨Rank.r9, Suit.H⟩, ⟨Rank.rK, Suit.C⟩]
     hd.hard_score ≤ hd.soft_score ∧
     (hd.has_ace = false → hd.soft_score = hd.hard_score) ∧
     (hd.busted = true ↔ hd.hard_score > 21)) :=
  ⟨Or.inl ⟨10, rfl⟩,
    claim_C3 (Hand.init 10)
      [⟨Rank.r10, Suit.S⟩, ⟨Rank.r9, Suit.H⟩, ⟨Rank.rK, Suit.C⟩]
      (Or.inl ⟨10, rfl⟩)⟩

/-- C4: a hand's blackjack flag becomes true exactly when, at the moment
it reaches two cards, those cards are one value-1 card and one value-10
card in either order and the hand is not a split hand; three-or-more-card
21s never set it, and split hands never set it. -/
theorem claim_C4 (cs : List Card) :
    (∀ ante : Int, ((deal (Hand.init ante) cs).blackjack = true ↔
        ∃ c0 c1 rest, cs = c0 :: c1 :: rest ∧ bjPair c0 c1)) ∧
    ((deal DealerHand.init cs).blackjack = true ↔
        ∃ c0 c1 rest, cs = c0 :: c1 :: rest ∧ bjPair c0 c1) ∧
    (∀ (c : Card) (b : Int),
      (deal (SplitHand.init c b) cs).blackjack = false) := by
  refine ⟨?_, ?_, ?_⟩
  · intro ante
    exact deal_blackjack_fresh _ cs rfl rfl (by simp [Hand.init])
  · exact deal_blackjack_fresh _ cs rfl rfl (by simp [DealerHand.init])
  · intro c b
    have hty : (SplitHand.init c b).hand_type = HandType.split := by
      simp [SplitHand.init, receive_card_hand_type]
    have hbj : (SplitHand.init c b).blackjack = false := by
      rw [SplitHand.init, receive_card_blackjack_of_len _ _ (by simp)]
    rw [deal_blackjack_of_split _ _ hty, hbj]

/-- C5: a regular hand's pair flag becomes true exactly when the second
card received has the same rank as the first; a matching rank arriving
later never sets it, and after [8,8] a third 8 leaves it true. -/
theorem claim_C5 (cs : List Card) (ante : Int) :
    ((deal (Hand.init ante) cs).has_pair = true ↔
      ∃ c0 c1 rest, cs = c0 :: c1 :: rest ∧ c0.rank = c1.rank) ∧
    (deal (Hand.init ante)
      [⟨Rank.r8, Suit.S⟩, ⟨Rank.r8, Suit.D⟩]).has_pair = true ∧
    (deal (Hand.init ante)
      [⟨Rank.r8, Suit.S⟩, ⟨Rank.r8, Suit.D⟩,
       ⟨Rank.r8, Suit.H⟩]).has_pair = true := by
  refine ⟨deal_has_pair_fresh _ cs rfl rfl rfl, ?_, ?_⟩
  · exact (deal_has_pair_fresh _ _ rfl rfl rfl).mpr
      ⟨⟨Rank.r8, Suit.S⟩, ⟨Rank.r8, Suit.D⟩, [], rfl, rfl⟩
  · exact (deal_has_pair_fresh _ _ rfl rfl rfl).mpr
      ⟨⟨Rank.r8, Suit.S⟩, ⟨Rank.r8, Suit.D⟩, [⟨Rank.r8, Suit.H⟩], rfl, rfl⟩

/-- C6: whenever a hand holds at least one ace after `receive_card`, the
candidate soft score is exactly the hard score plus 10 (exactly one ace
promoted), kept when it does not bust and discarded otherwise; in
particular [Ace, Ace, 9] yields hard 11, soft 21, not busted, and no
blackjack. -/
theorem claim_C6 (h : Hand) (c : Card)
    (hace : (receive_card h c).has_ace = true) :
    ((receive_card h c).soft_score =
      if (receive_card h c).hard_score + 10 > 21
      then (receive_card h c).hard_score
      else (receive_card h c).hard_score + 10) ∧
    (let hd := deal (Hand.init 10)
      [⟨Rank.rA, Suit.S⟩, ⟨Rank.rA, Suit.H⟩, ⟨Rank.r9, Suit.D⟩]
     hd.hard_score = 11 ∧ hd.soft_score = 21 ∧
     hd.busted = false ∧ hd.blackjack = false) := by
  constructor
  · obtain ⟨hsoft, -⟩ := receive_card_soft_busted h c
    rw [hsoft, hace]
    simp
  · exact ⟨by decide, by decide, by decide, by decide⟩

theorem claim_C6_witness :
    (receive_card (Hand.init 5) ⟨Rank.rA, Suit.S⟩).has_ace = true ∧
    (((receive_card (Hand.init 5) ⟨Rank.rA, Suit.S⟩).soft_score =
      if (receive_card (Hand.init 5) ⟨Rank.rA, Suit.S⟩).hard_score + 10 > 21
      then (receive_card (Hand.init 5) ⟨Rank.rA, Suit.S⟩).hard_score
      else (receive_card (Hand.init 5) ⟨Rank.rA, Suit.S⟩).hard_score + 10) ∧
    (let hd := deal (Hand.init 10)
      [⟨Rank.rA, Suit.S⟩, ⟨Rank.rA, Suit.H⟩, ⟨Rank.r9, Suit.D⟩]
     hd.hard_score = 11 ∧ hd.soft_score = 21 ∧
     hd.busted = false ∧ hd.blackjack = false)) :=
  ⟨by decide, claim_C6 (Hand.init 5) ⟨Rank.rA, Suit.S⟩ (by decide)⟩

/-- C7 counterexample: the constructor checks only `bank - table_min`,
not the reserve, so `Player("x", 'starter', bank=100, reserve=200,
table_min=10)` succeeds and leaves a negative bank. -/
theorem claim_C7_counterexample :
    (Player.init "x" "starter" 100 200 10).isSome = true ∧
    (Player.init "x" "starter" 100 200 10).map Player.bank =
      some (-100) ∧ (-100 : Int) < 0 := by
  refine ⟨by decide, by decide, by decide⟩

/-- C7 (amended): every successful `Player` construction carves the
reserve out of the supplied bank (resulting bank = bank argument minus
reserve argument, reserve stored as given); the resulting bank and
reserve are nonnegative provided the arguments satisfy
`0 ≤ reserve ≤ bank`, but the constructor itself does not enforce
that. -/
theorem claim_C7_amended (name skill : String)
    (bank reserve table_min : Int) (p : Player)
    (hinit : Player.init name skill bank reserve table_min = some p) :
    p.bank = bank - reserve ∧ p.reserve = reserve ∧
    (0 ≤ reserve → reserve ≤ bank → 0 ≤ p.bank ∧ 0 ≤ p.reserve) := by
  unfold Player.init at hinit
  by_cases hsk : skill ∈ SKILL_TYPES
  · rw [if_pos hsk] at hinit
    by_cases hbk : bank - table_min < 0
    · rw [if_pos hbk] at hinit
      exact absurd hinit (by simp)
    · rw [if_neg hbk] at hinit
      obtain rfl := Option.some.inj hinit
      exact ⟨rfl, rfl, fun h1 h2 => ⟨by simp; omega, by simpa using h1⟩⟩
  · rw [if_neg hsk] at hinit
    exact absurd hinit (by simp)

/-- Concrete successful construction used to witness C7 (amended). -/
def pW7 : Player :=
  { name := "a", skill_level := "starter", bank := 80, reserve := 20,
    total_bets := some 0, insurance_bet := none, hand_one := none,
    hand_two := none }

theorem claim_C7_witness :
    Player.init "a" "starter" 100 20 10 = some pW7 ∧
    (pW7.bank = 100 - 20 ∧ pW7.reserve = 20 ∧
      (0 ≤ (20 : Int) → (20 : Int) ≤ 100 →
        0 ≤ pW7.bank ∧ 0 ≤ pW7.reserve)) :=
  ⟨by decide, claim_C7_amended "a" "starter" 100 20 10 pW7 (by decide)⟩

/-- Player used in the C2 counterexample: bank 10, one regular hand with
a bet of 5 already committed. -/
def pC2 : Player :=
  { name := "c2", skill_level := "starter", bank := 10, reserve := 0,
    total_bets := some 5, insurance_bet := none,
    hand_one := some (Hand.init 5), hand_two := none }

/-- C2 counterexample: raising by 6 on a hand with bet 5 (a raise larger
than the current bet) against a bank of 10 returns the `"bank"` verdict
from validation, not `"bet"` — so the raise-too-large verdict is not
returned regardless of bank sufficiency. -/
theorem claim_C2_counterexample :
    getHand pC2 Which.one = some (Hand.init 5) ∧
    (6 : Int) > (Hand.init 5).bet_amt ∧
    update_bet pC2 6 Which.one 0 0 = some (pC2, "bank") ∧
    ("bank" : String) ≠ "bet" := by
  refine ⟨by decide, by decide, by decide, by decide⟩

/-- C2 (amended): for every player holding a hand and every raise amount
strictly greater than that hand's current bet, `update_bet` returns
`"bet"` when `validate_bet` passes the raised total, and otherwise
returns that validation verdict; in neither case does it commit. -/
theorem claim_C2_amended (p : Player) (amt : Int) (which_hand : Which)
    (table_max table_min : Int) (h : Hand)
    (hh : getHand p which_hand = some h) (hgt : amt > h.bet_amt) :
    update_bet p amt which_hand table_max table_min =
      some (p,
        if validate_bet p (amt + h.bet_amt) table_max table_min = "passed"
        then "bet"
        else validate_bet p (amt + h.bet_amt) table_max table_min) := by
  unfold update_bet
  rw [hh]
  by_cases hv :
      validate_bet p (amt + h.bet_amt) table_max table_min = "passed"
  · simp [hv, hgt]
  · simp [hv]

/-- Player used to witness C2 (amended): ample bank, hand bet 2. -/
def pW2 : Player :=
  { name := "w2", skill_level := "starter", bank := 100, reserve := 0,
    total_bets := some 2, insurance_bet := none,
    hand_one := some (Hand.init 2), hand_two := none }

theorem claim_C2_witness :
    getHand pW2 Which.one = some (Hand.init 2) ∧
    (3 : Int) > (Hand.init 2).bet_amt ∧
    update_bet pW2 3 Which.one 0 0 =
      some (pW2,
        if validate_bet pW2 (3 + (Hand.init 2).bet_amt) 0 0 = "passed"
        then "bet"
        else validate_bet pW2 (3 + (Hand.init 2).bet_amt) 0 0) :=
  ⟨by decide, by decide,
    claim_C2_amended pW2 3 Which.one 0 0 (Hand.init 2)
      (by decide) (by decide)⟩

/-- C8: after any mutating bet operation commits (`create_hand` returning
success, `create_split_hand`, `update_bet` returning success,
`create_insurance_bet` returning success), the player's `total_bets`
equals the insurance bet (or 0 when absent) plus the sum of the bet
amounts of the hands that exist — a full recomputation. -/
theorem claim_C8 (p : Player) (ante amt : Int) (which_hand : Which)
    (c : Card) (table_max table_min : Int) :
    (∀ p1, create_hand p ante table_max table_min = (p1, "success") →
      p1.total_bets = some (totalBetsSpec p1)) ∧
    ((create_split_hand p ante which_hand c).total_bets =
      some (totalBetsSpec (create_split_hand p ante which_hand c))) ∧
    (∀ p1, update_bet p amt which_hand table_max table_min =
        some (p1, "success") →
      p1.total_bets = some (totalBetsSpec p1)) ∧
    (∀ p1, create_insurance_bet p amt table_max table_min =
        (p1, "success") →
      p1.total_bets = some (totalBetsSpec p1)) := by
  refine ⟨?_, ?_, ?_, ?_⟩
  · intro p1 hcall
    unfold create_hand at hcall
    by_cases hv : validate_bet p ante table_max table_min = "passed"
    · rw [if_pos hv] at hcall
      injection hcall with h1 h2
      subst h1
      exact update_total_bets_consistent _
    · rw [if_neg hv] at hcall
      injection hcall with h1 h2
      exact absurd h2 (validate_bet_ne_success p ante table_max table_min)
  · exact update_total_bets_consistent _
  · intro p1 hcall
    unfold update_bet at hcall
    split at hcall
    · exact absurd hcall (by simp)
    · rename_i h heq
      dsimp only at hcall
      split at hcall
      · rename_i hne
        have h2 := (Prod.mk.injEq .. ▸ Option.some.inj hcall).2
        exact absurd h2 (validate_bet_ne_success p _ table_max table_min)
      · split at hcall
        · simp at hcall
        · have h1 := (Prod.mk.injEq .. ▸ Option.some.inj hcall).1
          subst h1
          exact update_total_bets_consistent _
  · intro p1 hcall
    unfold create_insurance_bet at hcall
    by_cases hv : validate_bet p amt table_max table_min = "passed"
    · rw [if_neg (fun hc => hc hv)] at hcall
      injection hcall with h1 h2
      subst h1
      exact update_total_bets_consistent _
    · rw [if_pos hv] at hcall
      injection hcall with h1 h2
      exact absurd h2 (validate_bet_ne_success p amt table_max table_min)

/-- Concrete players used to witness C8. -/
def pW8 : Player :=
  { name := "w8", skill_level := "starter", bank := 100, reserve := 0,
    total_bets := some 0, insurance_bet := none, hand_one := none,
    hand_two := none }

/-- `pW8` after `create_hand` commits an ante of 5. -/
def pW8a : Player :=
  { pW8 with hand_one := some (Hand.init 5), total_bets := some 5 }

/-- A player with a committed hand bet of 2, ready for a raise. -/
def pW8b : Player :=
  { name := "w8", skill_level := "starter", bank := 100, reserve := 0,
    total_bets := some 2, insurance_bet := none,
    hand_one := some (Hand.init 2), hand_two := none }

/-- `pW8b` after `update_bet` commits a raise of 2. -/
def pW8c : Player :=
  { pW8b with hand_one := some (Hand.init 4), total_bets := some 4 }

/-- `pW8` after `create_insurance_bet` commits a bet of 3. -/
def pW8d : Player :=
  { pW8 with insurance_bet := some 3, total_bets := some 3 }

theorem claim_C8_witness :
    (create_hand pW8 5 0 0 = (pW8a, "success") ∧
      pW8a.total_bets = some (totalBetsSpec pW8a)) ∧
    (update_bet pW8b 2 Which.one 0 0 = some (pW8c, "success") ∧
      pW8c.total_bets = some (totalBetsSpec pW8c)) ∧
    (create_insurance_bet pW8 3 0 0 = (pW8d, "success") ∧
      pW8d.total_bets = some (totalBetsSpec pW8d)) :=
  ⟨⟨by decide,
    (claim_C8 pW8 5 3 Which.one ⟨Rank.rK, Suit.S⟩ 0 0).1 pW8a (by decide)⟩,
   ⟨by decide,
    (claim_C8 pW8b 5 2 Which.one ⟨Rank.rK, Suit.S⟩ 0 0).2.2.1 pW8c
      (by decide)⟩,
   ⟨by decide,
    (claim_C8 pW8 5 3 Which.one ⟨Rank.rK, Suit.S⟩ 0 0).2.2.2 pW8d
      (by decide)⟩⟩

/-- C9: `create_hand` and `create_insurance_bet` mutate the player only
when `validate_bet` returns `"passed"`: on any other verdict they return
that verdict with the player untouched; on `"passed"` they commit (a
fresh regular hand with the ante in slot one, or the insurance bet) and
recompute the bet total. -/
theorem claim_C9 (p : Player) (ante amt table_max table_min : Int) :
    (validate_bet p ante table_max table_min ≠ "passed" →
      create_hand p ante table_max table_min =
        (p, validate_bet p ante table_max table_min)) ∧
    (validate_bet p ante table_max table_min = "passed" →
      (create_hand p ante table_max table_min).1.hand_one =
          some (Hand.init ante) ∧
      (create_hand p ante table_max table_min).1.total_bets =
        some (totalBetsSpec (create_hand p ante table_max table_min).1) ∧
      (create_hand p ante table_max table_min).2 = "success") ∧
    (validate_bet p amt table_max table_min ≠ "passed" →
      create_insurance_bet p amt table_max table_min =
        (p, validate_bet p amt table_max table_min)) ∧
    (validate_bet p amt table_max table_min = "passed" →
      (create_insurance_bet p amt table_max table_min).1.insurance_bet =
          some amt ∧
      (create_insurance_bet p amt table_max table_min).1.total_bets =
        some (totalBetsSpec
          (create_insurance_bet p amt table_max table_min).1) ∧
      (create_insurance_bet p amt table_max table_min).2 = "success") := by
  refine ⟨?_, ?_, ?_, ?_⟩
  · intro hv
    simp only [create_hand]
    rw [if_neg hv]
  · intro hv
    refine ⟨?_, ?_, ?_⟩
    · simp only [create_hand, hv, if_pos]
      exact update_total_bets_hand_one _
    · simp only [create_hand, hv, if_pos]
      exact update_total_bets_consistent _
    · simp [create_hand, hv]
  · intro hv
    simp only [create_insurance_bet]
    rw [if_pos hv]
  · intro hv
    refine ⟨?_, ?_, ?_⟩
    · simp only [create_insurance_bet, hv]
      exact update_total_bets_insurance _
    · simp only [create_insurance_bet, hv]
      exact update_total_bets_consistent _
    · simp [create_insurance_bet, hv]

/-- Player used to witness C9's failure cases: bank 10, so an ante of 50
draws the `"bank"` verdict. -/
def pW9 : Player :=
  { name := "w9", skill_level := "starter", bank := 10, reserve := 0,
    total_bets := some 0, insurance_bet := none, hand_one := none,
    hand_two := none }

theorem claim_C9_witness :
    (validate_bet pW9 50 0 0 ≠ "passed" ∧
      create_hand pW9 50 0 0 = (pW9, validate_bet pW9 50 0 0)) ∧
    (validate_bet pW8 5 0 0 = "passed" ∧
      (create_hand pW8 5 0 0).1.hand_one = some (Hand.init 5) ∧
      (create_hand pW8 5 0 0).1.total_bets =
        some (totalBetsSpec (create_hand pW8 5 0 0).1) ∧
      (create_hand pW8 5 0 0).2 = "success") ∧
    (validate_bet pW9 50 0 0 ≠ "passed" ∧
      create_insurance_bet pW9 50 0 0 = (pW9, validate_bet pW9 50 0 0)) ∧
    (validate_bet pW8 3 0 0 = "passed" ∧
      (create_insurance_bet pW8 3 0 0).1.insurance_bet = some 3 ∧
      (create_insurance_bet pW8 3 0 0).1.total_bets =
        some (totalBetsSpec (create_insurance_bet pW8 3 0 0).1) ∧
      (create_insurance_bet pW8 3 0 0).2 = "success") :=
  ⟨⟨by decide, (claim_C9 pW9 50 50 0 0).1 (by decide)⟩,
   ⟨by decide, (claim_C9 pW8 5 3 0 0).2.1 (by decide)⟩,
   ⟨by decide, (claim_C9 pW9 50 50 0 0).2.2.1 (by decide)⟩,
   ⟨by decide, (claim_C9 pW8 5 3 0 0).2.2.2 (by decide)⟩⟩

end Blackjack
